import Mathlib

/-!
Verification of the Tunlify gateway data plane and client relay.

The development shallowly embeds the JavaScript source:
* `backend/routes/websocket.js` — the control-channel state machine
  (`activeTunnels`, `pendingRequests`, `forwardRequest`, the message,
  close and janitor handlers) as a step function over `GwState`;
* `backend/routes/tunnel-proxy.js` (the route mounted by `server.js`) and
  its enhanced variant — the HTTP-ingress resolution sequence and the
  error translation;
* `backend/routes/tunnels.js` (both coexisting route variants) — the port
  allocator;
* `client/index.js` and the enhanced CLI client — header sanitization,
  binary classification of response bodies and the utf8/base64 body codecs.

JavaScript `Map`s become association lists, the uniform port draw
`Math.floor(Math.random() * 50000)` becomes an explicit `rand % 50000`
input, timers and the event loop become an explicit event trace that an
adversarial scheduler may interleave arbitrarily.
-/

namespace Tunlify

/-! ## String helpers (JS `toLowerCase` / `toUpperCase` on ASCII header
names, substring test backing `String.prototype.includes` and `RegExp.test`
on alternations of literals) -/

def lowerChar (c : Char) : Char :=
  if 'A' ≤ c ∧ c ≤ 'Z' then Char.ofNat (c.toNat + 32) else c

def upperChar (c : Char) : Char :=
  if 'a' ≤ c ∧ c ≤ 'z' then Char.ofNat (c.toNat - 32) else c

def lowerStr (s : String) : String := ⟨s.data.map lowerChar⟩

def upperStr (s : String) : String := ⟨s.data.map upperChar⟩

/-- JS `s.includes(pat)` / a regex literal alternation member matching:
`pat` occurs contiguously in `s`. -/
def hasSub (s pat : String) : Bool := decide (pat.data <:+: s.data)

/-! ## Association lists with JS `Map` semantics

`alistSet` models `map.set(k, v)` (key overwritten), `alistGet` models
`map.get(k)` / `map.has(k)`, `alistDelete` models `map.delete(k)`.
Iteration order is not load-bearing for any claim, so `alistSet` keeps the
fresh entry in front. -/

def alistGet {α : Type} (l : List (String × α)) (k : String) : Option α :=
  (l.find? (fun p => p.1 == k)).map (·.2)

def alistSet {α : Type} (l : List (String × α)) (k : String) (v : α) :
    List (String × α) :=
  (k, v) :: l.filter (fun p => p.1 != k)

def alistDelete {α : Type} (l : List (String × α)) (k : String) :
    List (String × α) :=
  l.filter (fun p => p.1 != k)

/-! ## Header maps and the four sanitizers

Headers are finite maps from name to string value, name case preserved
(Node lowercases incoming request-header names, but values received in a
`response` frame keep whatever spelling the client sent). -/

def Headers : Type := List (String × String)

/-- `problematicHeaders` of `websocket.js` (response case, lines 123–132). -/
def problematicHeaders : List String :=
  ["content-length", "transfer-encoding", "connection", "upgrade",
   "keep-alive", "host", "x-powered-by", "server"]

/-- The response-header cleanup of `websocket.js` lines 134–138: for each
entry `h` of `problematicHeaders` it executes `delete headers[h]`,
`delete headers[h.toLowerCase()]` and `delete headers[h.toUpperCase()]` —
exact-key deletes, so only the all-lowercase and all-UPPERCASE spellings
are removed. -/
def wsCleanHeaders (hs : List (String × String)) : List (String × String) :=
  hs.filter (fun p =>
    !(problematicHeaders.contains p.1
      || (problematicHeaders.map upperStr).contains p.1))

/-- `skipHeaders` of the mounted `tunnel-proxy.js` (line 61). -/
def skipHeadersProxy : List String :=
  ["content-length", "connection", "transfer-encoding"]

/-- Response-header filter of the mounted `tunnel-proxy.js` lines 62–66:
keeps an entry iff its lowercased name is not in `skipHeaders` and its
value is truthy (nonempty). -/
def proxyWriteHeaders (hs : List (String × String)) : List (String × String) :=
  hs.filter (fun p =>
    !(skipHeadersProxy.contains (lowerStr p.1)) && p.2 != "")

/-- `skipHeaders` of the enhanced proxy variant (`unnamed/part_000`
lines 136–145). -/
def skipHeadersEnhanced : List String :=
  ["content-length", "transfer-encoding", "connection", "upgrade",
   "keep-alive", "host", "server", "x-powered-by"]

/-- Response-header filter of the enhanced proxy variant
(`unnamed/part_000` lines 147–159). -/
def enhancedWriteHeaders (hs : List (String × String)) :
    List (String × String) :=
  hs.filter (fun p =>
    !(skipHeadersEnhanced.contains (lowerStr p.1)) && p.2 != "")

/-- Skip set of `sanitizeHeaders` in `client/index.js` lines 130–134. -/
def clientSkipIndexJs : List String :=
  ["host", "connection", "upgrade", "x-forwarded-for", "x-real-ip",
   "x-tunnel-subdomain", "x-tunnel-region", "x-forwarded-host",
   "x-forwarded-proto"]

/-- `sanitizeHeaders` of `client/index.js` lines 129–142: drops entries
whose lowercased name is in the skip set. -/
def sanitizeHeadersIndexJs (hs : List (String × String)) :
    List (String × String) :=
  hs.filter (fun p => !(clientSkipIndexJs.contains (lowerStr p.1)))

/-- Skip set of `sanitizeHeaders` in the enhanced CLI client
(`unnamed/part_004` lines 630–635). -/
def clientSkipPart004 : List String :=
  ["host", "connection", "upgrade", "x-forwarded-for", "x-real-ip",
   "x-tunnel-subdomain", "x-tunnel-region", "x-forwarded-host",
   "x-forwarded-proto", "content-length", "transfer-encoding"]

/-- `sanitizeHeaders` of the enhanced CLI client (`unnamed/part_004`
lines 629–644). -/
def sanitizeHeadersPart004 (hs : List (String × String)) :
    List (String × String) :=
  hs.filter (fun p => !(clientSkipPart004.contains (lowerStr p.1)))

/-! ## The control-channel state machine (`backend/routes/websocket.js`)

One gateway process: the `activeTunnels` and `pendingRequests` maps, the
catalog rows touched by the websocket handlers, and an append-only log of
waiter settlements (each `resolve`/`reject` invocation of a pending
request's promise handle).  Time is an explicit `Nat` (milliseconds)
carried by the events. -/

/-- A row of the `tunnels` table, restricted to the columns the gateway
data plane reads or writes. -/
structure TunnelRow where
  id : Nat
  token : String
  subdomain : String
  location : String
  clientConnected : Bool
  status : String
  lastConnected : Option Nat
deriving DecidableEq, Repr

/-- The tunnel key `` `${subdomain}.${location}` `` (websocket.js line 61). -/
def tunnelKeyOf (r : TunnelRow) : String := r.subdomain ++ "." ++ r.location

def findByToken (db : List TunnelRow) (t : String) : Option TunnelRow :=
  db.find? (fun r => r.token == t)

/-- `supabase.from('tunnels').update({...}).eq('id', tid)`: set the
connection columns on the row with the given id.  `lastC = none` models an
update that does not touch `last_connected` (the close handler). -/
def dbSetConnected (db : List TunnelRow) (tid : Nat) (c : Bool) (st : String)
    (lastC : Option Nat) : List TunnelRow :=
  db.map (fun r =>
    if r.id == tid then
      { r with clientConnected := c, status := st,
               lastConnected := match lastC with
                 | some n => some n
                 | none => r.lastConnected }
    else r)

/-- The value stored in `activeTunnels` (websocket.js lines 62–70).
`chanId` identifies the underlying socket object `ws`. -/
structure Conn where
  chanId : Nat
  tunnelId : Nat
  localAddress : Option String
  lastHeartbeat : Nat
  requestCount : Nat
  responseCount : Nat
deriving DecidableEq, Repr

/-- The value stored in `pendingRequests` (websocket.js lines 259–274);
the `resolve`/`reject` closures are modelled by the settlement log. -/
structure Pending where
  tunnelKey : String
  timestamp : Nat
  method : String
  url : String
deriving DecidableEq, Repr

/-- How a pending request's waiter was resumed. -/
inductive Outcome where
  /-- `resolve(responseData)` in the `response` case: status defaulted to
  200 when absent, headers cleaned by `wsCleanHeaders`. -/
  | response (statusCode : Nat) (headers : List (String × String))
      (body : Option String)
  /-- `reject(new Error(data.message))` in the `error` case. -/
  | clientError (msg : String)
  /-- the 30-second `setTimeout` rejection inside `forwardRequest`. -/
  | timeout
  /-- `reject(new Error('Client disconnected'))` in the close handler. -/
  | disconnected
  /-- `reject(...)` after `connection.ws.send` threw in `forwardRequest`. -/
  | sendFailed
  /-- `reject(new Error('Request cleanup - timeout'))` in the janitor. -/
  | cleanup
deriving DecidableEq, Repr

/-- Client → server frames as parsed by the `ws.on('message')` dispatcher.
`other ty` covers every `type` string outside the handled set. -/
inductive Frame where
  | setLocalAddress (addr : String)
  | response (requestId : String) (statusCode : Option Nat)
      (headers : List (String × String)) (body : Option String)
  | heartbeat
  | error (requestId : Option String) (msg : String)
  | other (ty : String)
deriving DecidableEq, Repr

/-- Observable socket actions of a handler. -/
inductive Action where
  | closeSocket (chanId : Nat) (code : Nat) (reason : String)
  | send (chanId : Nat) (ty : String)
deriving DecidableEq, Repr

def isCloseAction : Action → Bool
  | .closeSocket _ _ _ => true
  | .send _ _ => false

structure GwState where
  activeTunnels : List (String × Conn)
  pendingRequests : List (String × Pending)
  db : List TunnelRow
  /-- Append-only log: every invocation of a stored `resolve`/`reject`. -/
  settled : List (String × Outcome)
  /-- Every request id ever placed into `pendingRequests`. -/
  registered : List String
deriving DecidableEq, Repr

def initState (db : List TunnelRow) : GwState :=
  { activeTunnels := [], pendingRequests := [], db := db,
    settled := [], registered := [] }

/-- One event-loop turn of the gateway.  `msg`/`close_` carry the
`tunnelKey`/`tunnel.id` captured by the handler closure at connect time;
`forward` carries the generated request id and whether `ws.send` threw;
`fireTimeout` is the per-request 30 s timer; `janitor` is the 2-minute
cleanup interval. -/
inductive Event where
  | open_ (chanId : Nat) (token : Option String) (now : Nat)
  | msg (chanId : Nat) (key : String) (frame : Frame) (now : Nat)
  | close_ (chanId : Nat) (key : String) (tid : Nat)
  | forward (key : String) (reqId : String) (method url : String)
      (sendOk : Bool) (now : Nat)
  | fireTimeout (reqId : String)
  | janitor (now : Nat)
deriving DecidableEq, Repr

def staleConnMs : Nat := 5 * 60 * 1000

def staleReqMs : Nat := 2 * 60 * 1000

def step (s : GwState) (e : Event) : GwState × List Action :=
  match e with
  | .open_ chan token now =>
    match token with
    | none => (s, [.closeSocket chan 1008 "Connection token required"])
    | some t =>
      match findByToken s.db t with
      | none => (s, [.closeSocket chan 1008 "Invalid connection token"])
      | some row =>
        ({ s with
            db := dbSetConnected s.db row.id true "active" (some now),
            activeTunnels := alistSet s.activeTunnels (tunnelKeyOf row)
              ⟨chan, row.id, none, now, 0, 0⟩ },
         [.send chan "connected"])
  | .msg chan key frame now =>
    match frame with
    | .setLocalAddress addr =>
      match alistGet s.activeTunnels key with
      | some c =>
        let at1 := alistSet s.activeTunnels key ({ c with localAddress := some addr })
        ({ s with activeTunnels := at1 }, [.send chan "local_address_ack"])
      | none => (s, [])
    | .response reqId sc hs body =>
      match alistGet s.pendingRequests reqId with
      | some _ =>
        let s1 := { s with
          pendingRequests := alistDelete s.pendingRequests reqId }
        let s2 := match alistGet s1.activeTunnels key with
          | some c =>
            let at1 := alistSet s1.activeTunnels key ({ c with responseCount := c.responseCount + 1 })
            { s1 with activeTunnels := at1 }
          | none => s1
        ({ s2 with settled := s2.settled ++
            [(reqId, .response (sc.getD 200) (wsCleanHeaders hs) body)] },
         [])
      | none => (s, [])
    | .heartbeat =>
      let s1 := match alistGet s.activeTunnels key with
        | some c =>
          let at1 := alistSet s.activeTunnels key ({ c with lastHeartbeat := now })
          { s with activeTunnels := at1 }
        | none => s
      (s1, [.send chan "heartbeat_ack"])
    | .error reqIdOpt m =>
      match reqIdOpt with
      | some rid =>
        match alistGet s.pendingRequests rid with
        | some _ =>
          ({ s with
              pendingRequests := alistDelete s.pendingRequests rid,
              settled := s.settled ++ [(rid, .clientError m)] }, [])
        | none => (s, [])
      | none => (s, [])
    | .other _ => (s, [])
  | .close_ _chan key tid =>
    let toFail := s.pendingRequests.filter (fun p => p.2.tunnelKey == key)
    ({ s with
        db := dbSetConnected s.db tid false "inactive" none,
        activeTunnels := alistDelete s.activeTunnels key,
        pendingRequests :=
          s.pendingRequests.filter (fun p => p.2.tunnelKey != key),
        settled := s.settled ++
          toFail.map (fun p => (p.1, Outcome.disconnected)) },
     [])
  | .forward key reqId method u sendOk now =>
    match alistGet s.activeTunnels key with
    | none => (s, [])
    | some c =>
      let at1 := alistSet s.activeTunnels key ({ c with requestCount := c.requestCount + 1 })
      let s1 := { s with activeTunnels := at1 }
      let s2 := { s1 with
        pendingRequests :=
          alistSet s1.pendingRequests reqId ⟨key, now, method, u⟩,
        registered := s1.registered ++ [reqId] }
      if sendOk then (s2, [.send c.chanId "request"])
      else
        ({ s2 with
            pendingRequests := alistDelete s2.pendingRequests reqId,
            settled := s2.settled ++ [(reqId, .sendFailed)] },
         [])
  | .fireTimeout reqId =>
    match alistGet s.pendingRequests reqId with
    | some _ =>
      ({ s with
          pendingRequests := alistDelete s.pendingRequests reqId,
          settled := s.settled ++ [(reqId, .timeout)] }, [])
    | none => (s, [])
  | .janitor now =>
    let staleConns := s.activeTunnels.filter
      (fun p => decide (staleConnMs < now - p.2.lastHeartbeat))
    let stalePend := s.pendingRequests.filter
      (fun p => decide (staleReqMs < now - p.2.timestamp))
    ({ s with
        activeTunnels := s.activeTunnels.filter
          (fun p => !decide (staleConnMs < now - p.2.lastHeartbeat)),
        pendingRequests := s.pendingRequests.filter
          (fun p => !decide (staleReqMs < now - p.2.timestamp)),
        settled := s.settled ++
          stalePend.map (fun p => (p.1, Outcome.cleanup)) },
     staleConns.map (fun p => .closeSocket p.2.chanId 1000 ""))

def runState (s : GwState) (es : List Event) : GwState :=
  es.foldl (fun s e => (step s e).1) s

/-- Request ids are generated by `` `req_${Date.now()}_${random}` `` and are
fresh: a well-formed trace never issues a `forward` event reusing an id. -/
def eventFresh (s : GwState) : Event → Bool
  | .forward _ reqId _ _ _ _ => !(s.registered.contains reqId)
  | _ => true

def wfFrom (s : GwState) : List Event → Bool
  | [] => true
  | e :: es => eventFresh s e && wfFrom (step s e).1 es

/-- Number of settlement-log entries (waiter resumptions) for an id. -/
def settledCount (s : GwState) (id : String) : Nat :=
  s.settled.countP (fun p => p.1 == id)

/-- Number of `pendingRequests` entries for an id. -/
def pendingCount (s : GwState) (id : String) : Nat :=
  s.pendingRequests.countP (fun p => p.1 == id)

/-! ## HTTP ingress resolution (`backend/routes/tunnel-proxy.js`, the route
mounted by `server.js`) -/

/-- An incoming proxied HTTP request as the handler sees it.  Node has
already lowercased the incoming header names, so header lookup is by the
exact lowercase name. -/
structure ProxyReq where
  method : String
  url : String
  headers : List (String × String)
  body : Option String
deriving DecidableEq, Repr

/-- `req.headers[name]` followed by the handler's truthiness test: an
empty value counts as absent. -/
def headerVal (req : ProxyReq) (name : String) : Option String :=
  match alistGet req.headers name with
  | some "" => none
  | o => o

/-- `.eq('subdomain', s).eq('location', r).eq('status', 'active').limit(1)` -/
def findActiveTunnelRow (db : List TunnelRow) (sub reg : String) :
    Option TunnelRow :=
  db.find? (fun t =>
    t.subdomain == sub && t.location == reg && t.status == "active")

/-- The `request` frame built at lines 39–46: the original method, url and
headers pass through untouched; the body is omitted for GET/HEAD. -/
structure ReqFrame where
  requestId : String
  method : String
  url : String
  headers : List (String × String)
  body : Option String
deriving DecidableEq, Repr

inductive ProxyOutcome where
  | badRequest
  | notFound
  | clientNotConnected
  | wsNotConnected
  | forwarded (frame : ReqFrame)
deriving DecidableEq, Repr

/-- HTTP status of each early-return outcome (`forwarded` has none: the
status comes later from the client's response). -/
def statusOfOutcome : ProxyOutcome → Option Nat
  | .badRequest => some 400
  | .notFound => some 404
  | .clientNotConnected => some 503
  | .wsNotConnected => some 503
  | .forwarded _ => none

/-- The resolution sequence of `tunnel-proxy.js` lines 6–46.  The `Bool`
component records whether the catalog was consulted (the `supabase`
query executes only after the header check passed). -/
def proxyResolve (req : ProxyReq) (db : List TunnelRow)
    (registryKeys : List String) (reqId : String) : ProxyOutcome × Bool :=
  match headerVal req "x-tunnel-subdomain", headerVal req "x-tunnel-region" with
  | some sub, some reg =>
    match findActiveTunnelRow db sub reg with
    | none => (.notFound, true)
    | some t =>
      if t.clientConnected = false then (.clientNotConnected, true)
      else if registryKeys.contains (sub ++ "." ++ reg) then
        (.forwarded
          ⟨reqId, req.method, req.url, req.headers,
           if req.method == "GET" || req.method == "HEAD" then none
           else req.body⟩,
         true)
      else (.wsNotConnected, true)
  | _, _ => (.badRequest, false)

/-! ## Failure translation at the ingress boundary -/

/-- The 30-second rejection message used both by `forwardRequest`'s
internal timer (websocket.js line 254) and by the `Promise.race` timer of
the mounted proxy (tunnel-proxy.js line 50). -/
def requestTimeoutMsg : String :=
  "Request timeout - local application did not respond within 30 seconds"

/-- The 30-second race message of the enhanced proxy variant
(`unnamed/part_000` line 115). -/
def gatewayTimeoutMsg : String := "Gateway timeout after 30 seconds"

/-- The catch handler of the mounted `tunnel-proxy.js` lines 76–79: every
forwarding failure becomes `500` with body `{message, error}`. -/
def proxyCatchResponse (errMsg : String) : Nat × List (String × String) :=
  (500, [("message", "Internal server error"), ("error", errMsg)])

/-- The `forwardError` handler of the enhanced proxy variant
(`unnamed/part_000` lines 192–205): `504` when the message contains the
substring `timeout`, else `502`; body `{message, error, tunnel, debug}`
(the `debug` object's timestamp fields are elided). -/
def forwardErrorResponse (errMsg sub reg : String) :
    Nat × List (String × String) :=
  let code := if hasSub errMsg "timeout" then 504 else 502
  (code,
   [("message", if code == 504 then "Gateway Timeout" else "Bad Gateway"),
    ("error", errMsg),
    ("tunnel", sub ++ "." ++ reg ++ ".tunlify.biz.id"),
    ("debug", "elided")])

/-! ## Port allocation (`backend/routes/tunnels.js`, both route variants)

`Math.floor(Math.random() * 50000) + 10000` is modelled by feeding the
draw `rand` (the floored value, reduced mod 50000) explicitly; the used
`(location, port)` pairs visible to the freeness probe stand for the
catalog rows of the respective port column. -/

def generateRandomPort (rand : Nat) : Nat := rand % 50000 + 10000

/-- `true` iff no catalog row occupies `(loc, port)` — the
`.eq('location', loc).eq(portColumn, port).single()` probe coming back
empty. -/
def isPortFree (used : List (String × Nat)) (loc : String) (port : Nat) :
    Bool :=
  !(used.contains (loc, port))

def findAvailablePortAux (used : List (String × Nat)) (loc : String) :
    List Nat → Option Nat
  | [] => none
  | r :: rest =>
    let p := generateRandomPort r
    if isPortFree used loc p then some p
    else findAvailablePortAux used loc rest

/-- `findAvailablePort(location, maxAttempts = 20)` of the second
`tunnels.js` variant (lines 523–541): up to 20 random probes, `none`
models the thrown
`'Unable to find available port after multiple attempts'`. -/
def findAvailablePort (used : List (String × Nat)) (loc : String)
    (draws : List Nat) : Option Nat :=
  findAvailablePortAux used loc (draws.take 20)

def variantAAssignAux (used : List (String × Nat)) (loc : String) :
    List Nat → Nat → Nat
  | [], last => last
  | r :: rest, last =>
    let p := generateRandomPort r
    if isPortFree used loc p then p
    else
      match rest with
      | [] => p
      | _ :: _ => variantAAssignAux used loc rest last

/-- Auto-assignment in the first `tunnels.js` POST variant
(lines 153–179): one draw, then — only if it conflicts — up to 5 further
draws, keeping the last drawn port even when it also conflicts (the
handler proceeds to insert it). -/
def variantAAssign (used : List (String × Nat)) (loc : String)
    (d0 : Nat) (retries : List Nat) : Nat :=
  let p0 := generateRandomPort d0
  if isPortFree used loc p0 then p0
  else variantAAssignAux used loc (retries.take 5) p0

/-- The whole port-assignment step of the first `tunnels.js` POST variant
(lines 151–179): `let finalRemotePort = remote_port` — a user-supplied
port is kept as-is, with no freeness probe at all; only when no port was
supplied and the service is not plain http does the random 1+5-draw
assignment run (for an http service the port stays null). -/
def variantAPortAssign (used : List (String × Nat)) (loc : String)
    (protocol : String) (serviceType : String) (remotePort : Option Nat)
    (d0 : Nat) (retries : List Nat) : Option Nat :=
  match remotePort with
  | some p => some p
  | none =>
    if protocol == "tcp" || protocol == "udp" || serviceType != "http" then
      some (variantAAssign used loc d0 retries)
    else none

inductive PortAssignResult where
  | ok (port : Nat)
  | conflict409 (port : Nat)
  | exhausted500
deriving DecidableEq, Repr

/-- Port handling of the second `tunnels.js` POST variant
(lines 707–744): HTTP tunnels get port 80; a user-supplied port gets only
the `(location, port)` uniqueness probe (409 on conflict); otherwise
`findAvailablePort` runs, its failure surfacing as a 500. -/
def variantBAssign (used : List (String × Nat)) (loc : String)
    (protocol : String) (remotePort : Option Nat) (draws : List Nat) :
    PortAssignResult :=
  if protocol == "http" then .ok 80
  else
    match remotePort with
    | some p => if isPortFree used loc p then .ok p else .conflict409 p
    | none =>
      match findAvailablePort used loc draws with
      | some p => .ok p
      | none => .exhausted500

/-! ## Client relay: binary classification and body codecs

The relay holds the local response as raw bytes (`responseType:
'arraybuffer'`); a binary body travels base64-encoded in the frame, a text
body travels as the decoded string (`resp.data.toString()`), which the
gateway re-encodes as UTF-8 when writing to the edge socket.  Strings are
modelled as lists of Unicode scalar values, bytes as naturals below 256. -/

/-- `/image|video|audio|application\/octet-stream|application\/pdf/.test(ct)`
of the enhanced CLI client (`unnamed/part_004` line 358). -/
def isBinaryPart004 (ct : String) : Bool :=
  hasSub ct "image" || hasSub ct "video" || hasSub ct "audio"
    || hasSub ct "application/octet-stream" || hasSub ct "application/pdf"

/-- `/image|video|audio|application\/octet-stream/.test(ct)` of
`client/index.js` line 104 — no pdf alternative. -/
def isBinaryIndexJs (ct : String) : Bool :=
  hasSub ct "image" || hasSub ct "video" || hasSub ct "audio"
    || hasSub ct "application/octet-stream"

/-- The classification exactly as the claim words it: content-type matches
the pattern `image|video|audio|octet-stream|pdf`.  Stated from the spec's
words, to be compared with the two source classifiers. -/
def isBinarySpecClaim (ct : String) : Bool :=
  hasSub ct "image" || hasSub ct "video" || hasSub ct "audio"
    || hasSub ct "octet-stream" || hasSub ct "pdf"

/-- The `encoding` field the relay puts in the `response` frame. -/
def chosenEncoding (isBinary : String → Bool) (ct : String) : String :=
  if isBinary ct then "base64" else "utf8"

/-! ### Base64 (`Buffer.prototype.toString('base64')` and
`Buffer.from(s, 'base64')`), restricted to canonical padded input — which
is all the encoder ever produces. -/

def b64Alphabet : List Char :=
  "ABCDEFGHIJKLMNOPQRSTUVWXYZabcdefghijklmnopqrstuvwxyz0123456789+/".data

def b64Char (n : Nat) : Char := b64Alphabet.getD n '?'

def b64Val (c : Char) : Option Nat := b64Alphabet.findIdx? (· == c)

def base64Encode : List Nat → List Char
  | [] => []
  | [a] => [b64Char (a / 4), b64Char (a % 4 * 16), '=', '=']
  | [a, b] =>
    [b64Char (a / 4), b64Char (a % 4 * 16 + b / 16), b64Char (b % 16 * 4), '=']
  | a :: b :: d :: rest =>
    b64Char (a / 4) :: b64Char (a % 4 * 16 + b / 16)
      :: b64Char (b % 16 * 4 + d / 64) :: b64Char (d % 64)
      :: base64Encode rest

def base64Decode : List Char → Option (List Nat)
  | [] => some []
  | w :: x :: y :: z :: rest =>
    (match b64Val w, b64Val x with
     | some vw, some vx =>
       if y == '=' then
         if z == '=' && rest.isEmpty then some [vw * 4 + vx / 16] else none
       else
         match b64Val y with
         | some vy =>
           if z == '=' then
             if rest.isEmpty then
               some [vw * 4 + vx / 16, vx % 16 * 16 + vy / 4]
             else none
           else
             match b64Val z with
             | some vz =>
               match base64Decode rest with
               | some tail =>
                 some ((vw * 4 + vx / 16) :: (vx % 16 * 16 + vy / 4)
                   :: (vy % 4 * 64 + vz) :: tail)
               | none => none
             | none => none
         | none => none
     | _, _ => none)
  | _ => none

/-! ### UTF-8 (`Buffer.from(str, 'utf8')` and `buf.toString('utf8')`),
on well-formed data; the decoder rejects instead of substituting
replacement characters, which coincides with Node on the encoder's
image. -/

/-- A Unicode scalar value: any code point outside the surrogate range. -/
def validScalar (c : Nat) : Bool :=
  decide (c < 0xD800) || (decide (0xE000 ≤ c) && decide (c < 0x110000))

def utf8EncodeChar (c : Nat) : List Nat :=
  if c < 0x80 then [c]
  else if c < 0x800 then [0xC0 + c / 64, 0x80 + c % 64]
  else if c < 0x10000 then
    [0xE0 + c / 4096, 0x80 + c / 64 % 64, 0x80 + c % 64]
  else
    [0xF0 + c / 262144, 0x80 + c / 4096 % 64, 0x80 + c / 64 % 64,
     0x80 + c % 64]

def utf8Encode (cs : List Nat) : List Nat := (cs.map utf8EncodeChar).flatten

def isCont (b : Nat) : Bool := decide (0x80 ≤ b) && decide (b < 0xC0)

/-- Decode one scalar from the head of a byte list. -/
def utf8DecodeOne : List Nat → Option (Nat × List Nat)
  | [] => none
  | b :: rest =>
    if b < 0x80 then some (b, rest)
    else if b < 0xC2 then none
    else if b < 0xE0 then
      match rest with
      | b1 :: r =>
        if isCont b1 then some ((b - 0xC0) * 64 + (b1 - 0x80), r) else none
      | [] => none
    else if b < 0xF0 then
      match rest with
      | b1 :: b2 :: r =>
        if isCont b1 && isCont b2 then
          let c := (b - 0xE0) * 4096 + (b1 - 0x80) * 64 + (b2 - 0x80)
          if c < 0x800 || (decide (0xD800 ≤ c) && decide (c < 0xE000)) then
            none
          else some (c, r)
        else none
      | _ => none
    else if b < 0xF5 then
      match rest with
      | b1 :: b2 :: b3 :: r =>
        if isCont b1 && isCont b2 && isCont b3 then
          let c := (b - 0xF0) * 262144 + (b1 - 0x80) * 4096
            + (b2 - 0x80) * 64 + (b3 - 0x80)
          if c < 0x10000 || 0x110000 ≤ c then none else some (c, r)
        else none
      | _ => none
    else none

def utf8DecodeAux : Nat → List Nat → Option (List Nat)
  | _, [] => some []
  | 0, _ => none
  | fuel + 1, bs =>
    match utf8DecodeOne bs with
    | none => none
    | some (c, r) => (utf8DecodeAux fuel r).map (c :: ·)

/-- each decoded scalar consumes at least one byte, so `bs.length` units
of fuel always suffice. -/
def utf8Decode (bs : List Nat) : Option (List Nat) :=
  utf8DecodeAux bs.length bs

/-! ## The pending-request bookkeeping invariant -/

/-- Exactly-once bookkeeping over the parts of the state it depends on:
every registered request id is either still pending and never settled, or
no longer pending and settled exactly once; unregistered ids are neither
pending nor settled. -/
def InvOn (pend : List (String × Pending)) (sett : List (String × Outcome))
    (reg : List String) : Prop :=
  ∀ id : String,
    (id ∈ reg →
      pend.countP (fun p => p.1 == id) + sett.countP (fun p => p.1 == id)
        = 1) ∧
    (id ∉ reg →
      pend.countP (fun p => p.1 == id) = 0 ∧
      sett.countP (fun p => p.1 == id) = 0)

def Inv (s : GwState) : Prop :=
  InvOn s.pendingRequests s.settled s.registered

/-- The resumption kinds claim C1 enumerates: the client's `response`, the
client's `error`, or the 30-second timeout. -/
def resumeKindClaimed : Outcome → Bool
  | .response _ _ _ => true
  | .clientError _ => true
  | .timeout => true
  | _ => false

/-! ## Shared concrete data for counterexamples and witnesses -/

/-- One catalog row: tunnel 7, token `tok`, key `myapp.id`. -/
def exDb : List TunnelRow :=
  [⟨7, "tok", "myapp", "id", false, "inactive", none⟩]

/-- Client authenticates, one request is forwarded, then the channel
closes while the request is still pending. -/
def exTraceC1 : List Event :=
  [.open_ 1 (some "tok") 0,
   .forward "myapp.id" "r1" "GET" "/" true 5,
   .close_ 1 "myapp.id" 7]

/-- Two clients authenticate with the same token, one after the other:
channel 2 overwrites channel 1's registry entry. -/
def exTraceC3 : List Event :=
  [.open_ 1 (some "tok") 0, .open_ 2 (some "tok") 1]

/-! # Theorems

First a small library over the association-list operations, then the
invariant preservation, then one theorem (with witness or counterexample)
per claim. -/

theorem countP_and_split {α : Type} (l : List α) (p q : α → Bool) :
    l.countP (fun a => p a && q a) + l.countP (fun a => p a && !q a)
      = l.countP p := by
  induction l with
  | nil => simp
  | cons a t ih =>
    by_cases hp : p a <;> by_cases hq : q a <;>
      simp [List.countP_cons, hp, hq] <;> omega

theorem alistGet_isSome_pos {α : Type} {l : List (String × α)} {k : String}
    (h : (alistGet l k).isSome) : 0 < l.countP (fun p => p.1 == k) := by
  rw [List.countP_pos_iff]
  unfold alistGet at h
  rcases hfind : l.find? (fun p => p.1 == k) with _ | e
  · rw [hfind] at h
    simp at h
  · have hp := @List.find?_some _ (fun p => p.1 == k) e l hfind
    exact ⟨e, List.mem_of_find?_eq_some hfind, hp⟩

theorem countP_alistDelete_self {α : Type} (l : List (String × α))
    (k : String) :
    (alistDelete l k).countP (fun p => p.1 == k) = 0 := by
  simp only [alistDelete, List.countP_eq_zero]
  intro a ha
  rcases List.mem_filter.mp ha with ⟨_, hne⟩
  simpa using hne

theorem countP_alistDelete_other {α : Type} (l : List (String × α))
    {k k' : String} (h : k' ≠ k) :
    (alistDelete l k).countP (fun p => p.1 == k')
      = l.countP (fun p => p.1 == k') := by
  simp only [alistDelete]
  rw [List.countP_filter]
  refine List.countP_congr (fun x _ => ?_)
  by_cases hx : x.1 = k'
  · simp [hx, h]
  · simp [hx]

theorem countP_alistSet_self {α : Type} (l : List (String × α)) (k : String)
    (v : α) :
    (alistSet l k v).countP (fun p => p.1 == k) = 1 := by
  simp only [alistSet, List.countP_cons]
  have h0 : (l.filter (fun p => p.1 != k)).countP (fun p => p.1 == k) = 0 := by
    simp only [List.countP_eq_zero]
    intro a ha
    rcases List.mem_filter.mp ha with ⟨_, hne⟩
    simpa using hne
  simp [h0]

theorem countP_alistSet_other {α : Type} (l : List (String × α))
    {k k' : String} (v : α) (h : k' ≠ k) :
    (alistSet l k v).countP (fun p => p.1 == k')
      = l.countP (fun p => p.1 == k') := by
  simp only [alistSet, List.countP_cons]
  have h1 : ((k, v).1 == k') = false := by
    simp [show k ≠ k' from fun hh => h hh.symm]
  rw [List.countP_filter]
  have h2 : l.countP (fun x => x.1 == k' && x.1 != k)
      = l.countP (fun p => p.1 == k') := by
    refine List.countP_congr (fun x _ => ?_)
    by_cases hx : x.1 = k'
    · simp [hx, h]
    · simp [hx]
  simp [h1, h2]

theorem countP_settled_append_other {l : List (String × Outcome)}
    {r id : String} (o : Outcome) (h : id ≠ r) :
    (l ++ [(r, o)]).countP (fun p => p.1 == id)
      = l.countP (fun p => p.1 == id) := by
  have : ((r, o).1 == id) = false := by
    simp [show r ≠ id from fun hh => h hh.symm]
  simp [List.countP_append, List.countP_singleton, this]

theorem countP_settled_append_self {l : List (String × Outcome)}
    {r : String} (o : Outcome) :
    (l ++ [(r, o)]).countP (fun p => p.1 == r)
      = l.countP (fun p => p.1 == r) + 1 := by
  simp [List.countP_append, List.countP_singleton]

theorem alistGet_set_self {α : Type} (l : List (String × α)) (k : String)
    (v : α) : alistGet (alistSet l k v) k = some v := by
  simp [alistGet, alistSet, List.find?]

/-- Settling one pending entry: delete it and append one log record. -/
theorem invOn_settle_one {pend : List (String × Pending)}
    {sett : List (String × Outcome)} {reg : List String} {r : String}
    (o : Outcome) (hp : (alistGet pend r).isSome)
    (h : InvOn pend sett reg) :
    InvOn (alistDelete pend r) (sett ++ [(r, o)]) reg := by
  intro id
  have hpos := alistGet_isSome_pos hp
  by_cases hid : id = r
  · subst hid
    refine ⟨fun hreg => ?_, fun hnreg => ?_⟩
    · have h1 := (h id).1 hreg
      rw [countP_alistDelete_self, countP_settled_append_self]
      omega
    · exact absurd ((h id).2 hnreg).1 (by omega)
  · refine ⟨fun hreg => ?_, fun hnreg => ?_⟩
    · rw [countP_alistDelete_other _ hid, countP_settled_append_other o hid]
      exact (h id).1 hreg
    · rw [countP_alistDelete_other _ hid, countP_settled_append_other o hid]
      exact (h id).2 hnreg

/-- Registering a fresh id: insert a pending entry, append the id. -/
theorem invOn_register {pend : List (String × Pending)}
    {sett : List (String × Outcome)} {reg : List String} {r : String}
    (v : Pending) (hfresh : r ∉ reg) (h : InvOn pend sett reg) :
    InvOn (alistSet pend r v) sett (reg ++ [r]) := by
  intro id
  by_cases hid : id = r
  · subst hid
    have h2 := (h id).2 hfresh
    refine ⟨fun _ => ?_, fun hn => absurd (by simp) hn⟩
    rw [countP_alistSet_self]
    omega
  · refine ⟨fun hreg => ?_, fun hnreg => ?_⟩
    · have hreg' : id ∈ reg := by
        rcases List.mem_append.mp hreg with hh | hh
        · exact hh
        · exact absurd (by simpa using hh) hid
      rw [countP_alistSet_other pend v hid]
      exact (h id).1 hreg'
    · have hnreg' : id ∉ reg := fun hc => hnreg (List.mem_append.mpr (.inl hc))
      rw [countP_alistSet_other pend v hid]
      exact (h id).2 hnreg'

/-- Bulk settlement (channel close, janitor): the entries matching `q` are
removed and each contributes one log record. -/
theorem invOn_bulk {pend : List (String × Pending)}
    {sett : List (String × Outcome)} {reg : List String}
    (q : String × Pending → Bool) (f : String × Pending → Outcome)
    (h : InvOn pend sett reg) :
    InvOn (pend.filter (fun p => !q p))
      (sett ++ (pend.filter q).map (fun p => (p.1, f p))) reg := by
  intro id
  have hpend : (pend.filter (fun p => !q p)).countP (fun p => p.1 == id)
      = pend.countP (fun p => (p.1 == id) && !q p) := by
    rw [List.countP_filter]
  have hmap : ((pend.filter q).map (fun p => (p.1, f p))).countP
        (fun p => p.1 == id)
      = pend.countP (fun p => (p.1 == id) && q p) := by
    rw [List.countP_map, List.countP_filter]
    exact List.countP_congr (fun x _ => by simp [Function.comp])
  have hsplit := countP_and_split pend (fun p => p.1 == id) q
  refine ⟨fun hreg => ?_, fun hnreg => ?_⟩
  · have h1 := (h id).1 hreg
    rw [List.countP_append, hpend, hmap]
    omega
  · have h2 := (h id).2 hnreg
    rw [List.countP_append, hpend, hmap]
    omega

theorem inv_step (s : GwState) (e : Event) (hw : eventFresh s e = true)
    (h : Inv s) : Inv (step s e).1 := by
  cases e with
  | open_ chan token now =>
    cases token with
    | none => exact h
    | some t =>
      cases hft : findByToken s.db t with
      | none => simp only [step, hft]; exact h
      | some row => simp only [step, hft]; exact h
  | msg chan key frame now =>
    cases frame with
    | setLocalAddress addr =>
      cases hg : alistGet s.activeTunnels key with
      | none => simp only [step, hg]; exact h
      | some c => simp only [step, hg]; exact h
    | response reqId sc hs body =>
      cases hg : alistGet s.pendingRequests reqId with
      | none => simp only [step, hg]; exact h
      | some pe =>
        have hp : (alistGet s.pendingRequests reqId).isSome := by
          rw [hg]; rfl
        cases hg2 : alistGet s.activeTunnels key with
        | none =>
          simp only [step, hg, hg2]
          exact invOn_settle_one _ hp h
        | some c =>
          simp only [step, hg, hg2]
          exact invOn_settle_one _ hp h
    | heartbeat =>
      cases hg : alistGet s.activeTunnels key with
      | none => simp only [step, hg]; exact h
      | some c => simp only [step, hg]; exact h
    | error reqIdOpt m =>
      cases reqIdOpt with
      | none => exact h
      | some rid =>
        cases hg : alistGet s.pendingRequests rid with
        | none => simp only [step, hg]; exact h
        | some pe =>
          have hp : (alistGet s.pendingRequests rid).isSome := by
            rw [hg]; rfl
          simp only [step, hg]
          exact invOn_settle_one _ hp h
    | other ty => exact h
  | close_ chan key tid =>
    exact invOn_bulk (fun p => p.2.tunnelKey == key)
      (fun _ => Outcome.disconnected) h
  | forward key reqId method u sendOk now =>
    cases hg : alistGet s.activeTunnels key with
    | none => simp only [step, hg]; exact h
    | some c =>
      have hfresh : reqId ∉ s.registered := by
        simp only [eventFresh, Bool.not_eq_true'] at hw
        simpa using hw
      cases sendOk with
      | true =>
        simp only [step, hg]
        exact invOn_register _ hfresh h
      | false =>
        simp only [step, hg]
        have hreg := invOn_register (⟨key, now, method, u⟩ : Pending)
          hfresh h
        have hp : (alistGet
            (alistSet s.pendingRequests reqId
              (⟨key, now, method, u⟩ : Pending)) reqId).isSome := by
          rw [alistGet_set_self]; rfl
        exact invOn_settle_one _ hp hreg
  | fireTimeout reqId =>
    cases hg : alistGet s.pendingRequests reqId with
    | none => simp only [step, hg]; exact h
    | some pe =>
      have hp : (alistGet s.pendingRequests reqId).isSome := by
        rw [hg]; rfl
      simp only [step, hg]
      exact invOn_settle_one _ hp h
  | janitor now =>
    exact invOn_bulk (fun p => decide (staleReqMs < now - p.2.timestamp))
      (fun _ => Outcome.cleanup) h

theorem inv_init (db : List TunnelRow) : Inv (initState db) := by
  intro id
  exact ⟨fun hreg => by simp [initState] at hreg, fun _ => by simp [initState]⟩

theorem inv_run (s : GwState) (es : List Event)
    (hw : wfFrom s es = true) (h : Inv s) : Inv (runState s es) := by
  induction es generalizing s with
  | nil => exact h
  | cons e es ih =>
    rw [wfFrom, Bool.and_eq_true] at hw
    exact ih _ hw.2 (inv_step s e hw.1 h)

theorem nodup_keys_filter {α : Type} (l : List (String × α))
    (q : String × α → Bool) (h : (l.map Prod.fst).Nodup) :
    ((l.filter q).map Prod.fst).Nodup :=
  List.Nodup.sublist (List.Sublist.map Prod.fst (List.filter_sublist l)) h

theorem nodup_keys_alistSet {α : Type} (l : List (String × α)) (k : String)
    (v : α) (h : (l.map Prod.fst).Nodup) :
    ((alistSet l k v).map Prod.fst).Nodup := by
  simp only [alistSet, List.map_cons]
  refine List.nodup_cons.mpr ⟨?_, nodup_keys_filter l _ h⟩
  intro hmem
  rcases List.mem_map.mp hmem with ⟨p, hp, hk⟩
  rcases List.mem_filter.mp hp with ⟨_, hne⟩
  rw [hk] at hne
  simp at hne

/-- The `activeTunnels` map has no duplicate keys. -/
def RegistryNodup (s : GwState) : Prop :=
  (s.activeTunnels.map Prod.fst).Nodup

theorem registryNodup_step (s : GwState) (e : Event)
    (h : RegistryNodup s) : RegistryNodup (step s e).1 := by
  cases e with
  | open_ chan token now =>
    cases token with
    | none => exact h
    | some t =>
      cases hft : findByToken s.db t with
      | none => simp only [step, hft]; exact h
      | some row =>
        simp only [step, hft]
        exact nodup_keys_alistSet _ _ _ h
  | msg chan key frame now =>
    cases frame with
    | setLocalAddress addr =>
      cases hg : alistGet s.activeTunnels key with
      | none => simp only [step, hg]; exact h
      | some c =>
        simp only [step, hg]
        exact nodup_keys_alistSet _ _ _ h
    | response reqId sc hs body =>
      cases hg : alistGet s.pendingRequests reqId with
      | none => simp only [step, hg]; exact h
      | some pe =>
        cases hg2 : alistGet s.activeTunnels key with
        | none => simp only [step, hg, hg2]; exact h
        | some c =>
          simp only [step, hg, hg2]
          exact nodup_keys_alistSet _ _ _ h
    | heartbeat =>
      cases hg : alistGet s.activeTunnels key with
      | none => simp only [step, hg]; exact h
      | some c =>
        simp only [step, hg]
        exact nodup_keys_alistSet _ _ _ h
    | error reqIdOpt m =>
      cases reqIdOpt with
      | none => exact h
      | some rid =>
        cases hg : alistGet s.pendingRequests rid with
        | none => simp only [step, hg]; exact h
        | some pe => simp only [step, hg]; exact h
    | other ty => exact h
  | close_ chan key tid =>
    exact nodup_keys_filter _ _ h
  | forward key reqId method u sendOk now =>
    cases hg : alistGet s.activeTunnels key with
    | none => simp only [step, hg]; exact h
    | some c =>
      cases sendOk with
      | true =>
        simp only [step, hg]
        exact nodup_keys_alistSet _ _ _ h
      | false =>
        simp only [step, hg]
        exact nodup_keys_alistSet _ _ _ h
  | fireTimeout reqId =>
    cases hg : alistGet s.pendingRequests reqId with
    | none => simp only [step, hg]; exact h
    | some pe => simp only [step, hg]; exact h
  | janitor now =>
    exact nodup_keys_filter _ _ h

theorem registryNodup_run (s : GwState) (es : List Event)
    (h : RegistryNodup s) : RegistryNodup (runState s es) := by
  induction es generalizing s with
  | nil => exact h
  | cons e es ih => exact ih _ (registryNodup_step s e h)

theorem alistGet_none_count {α : Type} {l : List (String × α)} {k : String}
    (h : alistGet l k = none) : l.countP (fun p => p.1 == k) = 0 := by
  unfold alistGet at h
  rw [Option.map_eq_none'] at h
  rw [List.find?_eq_none] at h
  rw [List.countP_eq_zero]
  exact h

theorem alistGet_delete_self {α : Type} (l : List (String × α))
    (k : String) : alistGet (alistDelete l k) k = none := by
  have hfind : (l.filter (fun p => p.1 != k)).find? (fun p => p.1 == k)
      = none := by
    rw [List.find?_eq_none]
    intro x hx
    rcases List.mem_filter.mp hx with ⟨_, hne⟩
    simpa using hne
  simp [alistGet, alistDelete, hfind]

/-! ## Claim C1 -/

/-- Claim C1, as stated, is false: the claim allows only the client's
`response`, the client's `error`, or a timeout as the resumption of an
ingress waiter, but in the trace `exTraceC1` — authenticate, forward one
request, close the channel while the request is pending — the single
waiter resumption is the close handler's
`reject(new Error('Client disconnected'))`, which is none of the three. -/
theorem C1_counterexample :
    (runState (initState exDb) exTraceC1).settled
        = [("r1", Outcome.disconnected)]
      ∧ ((runState (initState exDb) exTraceC1).settled.all
          (fun p => resumeKindClaimed p.2)) = false := by
  exact ⟨by decide, by decide⟩

/-- Claim C1 (amended): for every `request` frame the gateway sends over a
control channel, the pending-request table entry for its request id is
removed exactly once and the ingress waiter for that id is resumed exactly
once — with the client's `response`, the client's `error`, a timeout, a
send failure, the channel-close disconnect rejection, or the janitor
cleanup rejection — never zero times and never more than once, for any
interleaving of `response`, `error`, timeout firing, and channel close:
(1) a waiter is never resumed twice; (2) every registered request id is
at all times either still pending (and not yet resumed) or resumed exactly
once; (3) once the request's 30-second timer has fired, the waiter has
been resumed exactly once. -/
theorem C1_exactly_once (db : List TunnelRow) (es : List Event)
    (hw : wfFrom (initState db) es = true) :
    (∀ id, settledCount (runState (initState db) es) id ≤ 1)
    ∧ (∀ id, id ∈ (runState (initState db) es).registered →
        pendingCount (runState (initState db) es) id
          + settledCount (runState (initState db) es) id = 1)
    ∧ (∀ id, id ∈ (runState (initState db) es).registered →
        settledCount
          ((step (runState (initState db) es) (.fireTimeout id)).1) id
          = 1) := by
  have hinv : Inv (runState (initState db) es) :=
    inv_run _ es hw (inv_init db)
  refine ⟨fun id => ?_, fun id hid => (hinv id).1 hid, fun id hid => ?_⟩
  · by_cases hid : id ∈ (runState (initState db) es).registered
    · have := (hinv id).1 hid
      unfold settledCount
      unfold pendingCount at this
      omega
    · have := ((hinv id).2 hid).2
      unfold settledCount
      omega
  · have hsum := (hinv id).1 hid
    cases hg : alistGet (runState (initState db) es).pendingRequests id with
    | some pe =>
      have hpos := alistGet_isSome_pos (l := (runState (initState db) es).pendingRequests) (by rw [hg]; rfl)
      simp only [step, hg]
      unfold settledCount
      rw [countP_settled_append_self]
      omega
    | none =>
      have hzero := alistGet_none_count hg
      simp only [step, hg]
      unfold settledCount
      omega

/-- At most one resumption, checked on the concrete trace `exTraceC1`. -/
theorem C1_exactly_once_witness :
    settledCount (runState (initState exDb) exTraceC1) "r1" ≤ 1 :=
  (C1_exactly_once exDb exTraceC1 (by decide)).1 "r1"

/-! ## Claim C3 -/

/-- Claim C3, as stated, is false: the close handler deletes the registry
entry unconditionally (`activeTunnels.delete(tunnelKey)`), not
compare-and-delete.  After `exTraceC3` (channel 2 overwrote channel 1
under key `myapp.id`), the close of channel 1 removes the entry even
though it points to channel 2. -/
theorem C3_counterexample :
    ((alistGet (runState (initState exDb) exTraceC3).activeTunnels
        "myapp.id").map Conn.chanId = some 2)
    ∧ alistGet ((step (runState (initState exDb) exTraceC3)
        (.close_ 1 "myapp.id" 7)).1).activeTunnels "myapp.id" = none := by
  exact ⟨by decide, by decide⟩

/-- Claim C3 (amended): when a control channel closes, the gateway removes
the registry entry for the tunnel key unconditionally — even when the
entry meanwhile points to a newer channel — fails every pending request
whose tunnel key equals that key with the disconnect rejection, and
updates the catalog row to `client_connected = false`,
`status = 'inactive'`; after these steps no pending entry for that key
remains. -/
theorem C3_close_cleanup (s : GwState) (chan : Nat) (key : String)
    (tid : Nat) :
    alistGet ((step s (.close_ chan key tid)).1).activeTunnels key = none
    ∧ (∀ rid p, (rid, p) ∈ s.pendingRequests → p.tunnelKey = key →
        (rid, Outcome.disconnected)
          ∈ ((step s (.close_ chan key tid)).1).settled)
    ∧ (∀ rid p, (rid, p) ∈ ((step s (.close_ chan key tid)).1).pendingRequests →
        p.tunnelKey ≠ key)
    ∧ (∀ r, r ∈ s.db → r.id = tid →
        ({ r with clientConnected := false, status := "inactive" }
          : TunnelRow) ∈ ((step s (.close_ chan key tid)).1).db) := by
  refine ⟨?_, ?_, ?_, ?_⟩
  · exact alistGet_delete_self s.activeTunnels key
  · intro rid p hmem hkey
    simp only [step]
    refine List.mem_append.mpr (.inr ?_)
    refine List.mem_map.mpr ⟨(rid, p), ?_, rfl⟩
    refine List.mem_filter.mpr ⟨hmem, ?_⟩
    simp [hkey]
  · intro rid p hmem
    simp only [step] at hmem
    rcases List.mem_filter.mp hmem with ⟨_, hne⟩
    simpa using hne
  · intro r hmem hid
    simp only [step]
    unfold dbSetConnected
    have hmm := List.mem_map_of_mem (fun r : TunnelRow =>
      if r.id == tid then
        ({ r with clientConnected := false,
                  status := "inactive",
                  lastConnected := r.lastConnected } : TunnelRow)
      else r) hmem
    simpa [hid] using hmm

/-- The pending request of `exTraceC1`'s prefix is failed with the
disconnect rejection when the channel closes. -/
theorem C3_close_cleanup_witness :
    ("r1", Outcome.disconnected)
      ∈ ((step (runState (initState exDb)
            [.open_ 1 (some "tok") 0,
             .forward "myapp.id" "r1" "GET" "/" true 5])
          (.close_ 1 "myapp.id" 7)).1).settled :=
  (C3_close_cleanup (runState (initState exDb)
      [.open_ 1 (some "tok") 0, .forward "myapp.id" "r1" "GET" "/" true 5])
    1 "myapp.id" 7).2.1 "r1" ⟨"myapp.id", 5, "GET", "/"⟩ (by decide) rfl

/-! ## Claim C4 -/

/-- Claim C4, as stated, is false in its second half: inserting a newly
authenticated channel under an occupied key does not close the previous
channel.  With channel 1 registered under `myapp.id`, authenticating
channel 2 with the same token emits only the `connected` frame to
channel 2 — no close of channel 1 (nor of anything else). -/
theorem C4_counterexample :
    (alistGet (runState (initState exDb)
        [.open_ 1 (some "tok") 0]).activeTunnels "myapp.id").isSome = true
    ∧ (step (runState (initState exDb) [.open_ 1 (some "tok") 0])
        (.open_ 2 (some "tok") 1)).2 = [Action.send 2 "connected"] := by
  exact ⟨by decide, by decide⟩

/-- Claim C4 (amended): the connection registry holds at most one control
channel per tunnel key at every reachable instant, and inserting a newly
authenticated channel under a key that already has an entry silently
overwrites that entry (last-writer-wins) without closing the previous
channel: the only socket action of a successful open is the `connected`
frame to the new channel. -/
theorem C4_single_writer :
    (∀ db es,
      ((runState (initState db) es).activeTunnels.map Prod.fst).Nodup)
    ∧ (∀ s chan t now row, findByToken s.db t = some row →
        alistGet ((step s (.open_ chan (some t) now)).1).activeTunnels
            (tunnelKeyOf row)
          = some ⟨chan, row.id, none, now, 0, 0⟩
        ∧ (step s (.open_ chan (some t) now)).2
            = [Action.send chan "connected"]) := by
  constructor
  · intro db es
    exact registryNodup_run (initState db) es (by simp [RegistryNodup, initState])
  · intro s chan t now row hrow
    refine ⟨?_, ?_⟩
    · simp only [step, hrow]
      exact alistGet_set_self _ _ _
    · simp [step, hrow]

/-- The overwrite shape, checked concretely: opening channel 5 stores it
under `myapp.id`. -/
theorem C4_single_writer_witness :
    alistGet ((step (initState exDb)
        (.open_ 5 (some "tok") 3)).1).activeTunnels ("myapp" ++ "." ++ "id")
      = some ⟨5, 7, none, 3, 0, 0⟩ :=
  (C4_single_writer.2 (initState exDb) 5 "tok" 3
    ⟨7, "tok", "myapp", "id", false, "inactive", none⟩ (by decide)).1

/-! ## Claim C9 -/

/-- Claim C9: a control channel is authenticated exactly once, at open.
A missing token closes the socket with policy-violation code 1008 and
changes nothing; a token matching no catalog row does the same; and
message handling of an established channel never closes the socket and
never touches the catalog — the token plays no role after open, so
authentication is never re-checked on later frames. -/
theorem C9_auth_once :
    (∀ s chan now, step s (.open_ chan none now)
        = (s, [Action.closeSocket chan 1008 "Connection token required"]))
    ∧ (∀ s chan t now, findByToken s.db t = none →
        step s (.open_ chan (some t) now)
          = (s, [Action.closeSocket chan 1008 "Invalid connection token"]))
    ∧ (∀ s chan key frame now,
        ((step s (.msg chan key frame now)).2.all
            (fun a => !isCloseAction a)) = true
        ∧ ((step s (.msg chan key frame now)).1).db = s.db) := by
  refine ⟨fun s chan now => rfl, fun s chan t now hft => ?_, ?_⟩
  · simp [step, hft]
  · intro s chan key frame now
    cases frame with
    | setLocalAddress addr =>
      cases hg : alistGet s.activeTunnels key with
      | none => simp [step, hg, isCloseAction]
      | some c => simp [step, hg, isCloseAction]
    | response reqId sc hs body =>
      cases hg : alistGet s.pendingRequests reqId with
      | none => simp [step, hg]
      | some pe =>
        cases hg2 : alistGet s.activeTunnels key with
        | none => simp [step, hg, hg2]
        | some c => simp [step, hg, hg2]
    | heartbeat =>
      cases hg : alistGet s.activeTunnels key with
      | none => simp [step, hg, isCloseAction]
      | some c => simp [step, hg, isCloseAction]
    | error reqIdOpt m =>
      cases reqIdOpt with
      | none => simp [step]
      | some rid =>
        cases hg : alistGet s.pendingRequests rid with
        | none => simp [step, hg]
        | some pe => simp [step, hg]
    | other ty => simp [step]

/-- A wrong token is rejected with 1008 and leaves the state untouched,
checked concretely. -/
theorem C9_auth_once_witness :
    step (initState exDb) (.open_ 3 (some "wrong") 0)
      = (initState exDb,
         [Action.closeSocket 3 1008 "Invalid connection token"]) :=
  C9_auth_once.2.1 (initState exDb) 3 "wrong" 0 (by decide)

/-! ## Claim C10 -/

/-- Claim C10: a `response` or `error` frame whose request id has no
pending entry (duplicate, late, or unknown), an `error` frame with no
request id, and a frame of any type outside the handled set leave the
whole gateway state — pending table, connection registry and catalog —
unchanged and emit no socket action (in particular the channel is not
closed). -/
theorem C10_stale_and_unknown_frames (s : GwState) (chan : Nat)
    (key : String) (now : Nat) :
    (∀ reqId sc hs b, alistGet s.pendingRequests reqId = none →
        step s (.msg chan key (.response reqId sc hs b) now) = (s, []))
    ∧ (∀ rid m, alistGet s.pendingRequests rid = none →
        step s (.msg chan key (.error (some rid) m) now) = (s, []))
    ∧ (∀ m, step s (.msg chan key (.error none m) now) = (s, []))
    ∧ (∀ ty, step s (.msg chan key (.other ty) now) = (s, [])) := by
  refine ⟨?_, ?_, fun m => rfl, fun ty => rfl⟩
  · intro reqId sc hs b hg
    simp [step, hg]
  · intro rid m hg
    simp [step, hg]

/-- A `response` for an unknown request id is a no-op, checked on the
authenticated concrete state. -/
theorem C10_stale_and_unknown_frames_witness :
    step (runState (initState exDb) [.open_ 1 (some "tok") 0])
        (.msg 1 "myapp.id" (.response "ghost" none [] none) 9)
      = (runState (initState exDb) [.open_ 1 (some "tok") 0], []) :=
  (C10_stale_and_unknown_frames
      (runState (initState exDb) [.open_ 1 (some "tok") 0]) 1 "myapp.id" 9).1
    "ghost" none [] none (by decide)

/-! ## Claim C7 -/

/-- Claim C7: the ingress resolution checks run in the stated order with
the stated statuses — a missing (or empty) `X-Tunnel-Subdomain` or
`X-Tunnel-Region` header yields 400 before the catalog is consulted; no
active row for `(subdomain, region)` yields 404; a row with
`client_connected = false` yields 503; a missing registry entry for the
tunnel key yields 503; only when every check passes is the request id
placed in a `request` frame that carries the original method, url,
headers, and (except for GET/HEAD) body. -/
theorem C7_resolution_order (req : ProxyReq) (db : List TunnelRow)
    (keys : List String) (rid : String) :
    (headerVal req "x-tunnel-subdomain" = none
        ∨ headerVal req "x-tunnel-region" = none →
      proxyResolve req db keys rid = (.badRequest, false)
      ∧ statusOfOutcome (proxyResolve req db keys rid).1 = some 400)
    ∧ (∀ sub reg, headerVal req "x-tunnel-subdomain" = some sub →
        headerVal req "x-tunnel-region" = some reg →
        findActiveTunnelRow db sub reg = none →
        proxyResolve req db keys rid = (.notFound, true)
        ∧ statusOfOutcome (proxyResolve req db keys rid).1 = some 404)
    ∧ (∀ sub reg t, headerVal req "x-tunnel-subdomain" = some sub →
        headerVal req "x-tunnel-region" = some reg →
        findActiveTunnelRow db sub reg = some t →
        t.clientConnected = false →
        proxyResolve req db keys rid = (.clientNotConnected, true)
        ∧ statusOfOutcome (proxyResolve req db keys rid).1 = some 503)
    ∧ (∀ sub reg t, headerVal req "x-tunnel-subdomain" = some sub →
        headerVal req "x-tunnel-region" = some reg →
        findActiveTunnelRow db sub reg = some t →
        t.clientConnected = true →
        keys.contains (sub ++ "." ++ reg) = false →
        proxyResolve req db keys rid = (.wsNotConnected, true)
        ∧ statusOfOutcome (proxyResolve req db keys rid).1 = some 503)
    ∧ (∀ sub reg t, headerVal req "x-tunnel-subdomain" = some sub →
        headerVal req "x-tunnel-region" = some reg →
        findActiveTunnelRow db sub reg = some t →
        t.clientConnected = true →
        keys.contains (sub ++ "." ++ reg) = true →
        proxyResolve req db keys rid
          = (.forwarded ⟨rid, req.method, req.url, req.headers,
              if req.method == "GET" || req.method == "HEAD" then none
              else req.body⟩, true)) := by
  refine ⟨?_, ?_, ?_, ?_, ?_⟩
  · intro h
    rcases h with h | h
    · cases hr : headerVal req "x-tunnel-region" with
      | none => simp [proxyResolve, h, hr, statusOfOutcome]
      | some reg => simp [proxyResolve, h, hr, statusOfOutcome]
    · cases hs : headerVal req "x-tunnel-subdomain" with
      | none => simp [proxyResolve, h, hs, statusOfOutcome]
      | some sub => simp [proxyResolve, h, hs, statusOfOutcome]
  · intro sub reg hs hr hfind
    simp [proxyResolve, hs, hr, hfind, statusOfOutcome]
  · intro sub reg t hs hr hfind hcc
    simp [proxyResolve, hs, hr, hfind, hcc, statusOfOutcome]
  · intro sub reg t hs hr hfind hcc hkeys
    replace hkeys : sub ++ "." ++ reg ∉ keys := by simpa using hkeys
    simp [proxyResolve, hs, hr, hfind, hcc, hkeys, statusOfOutcome]
  · intro sub reg t hs hr hfind hcc hkeys
    replace hkeys : sub ++ "." ++ reg ∈ keys := by simpa using hkeys
    simp [proxyResolve, hs, hr, hfind, hcc, hkeys]

/-- The 400-before-lookup branch, checked on a request with no headers. -/
theorem C7_resolution_order_witness :
    proxyResolve ⟨"GET", "/", [], none⟩ exDb [] "r1"
      = (ProxyOutcome.badRequest, false) :=
  ((C7_resolution_order ⟨"GET", "/", [], none⟩ exDb [] "r1").1
    (Or.inl (by decide))).1

/-! ## Claim C2 -/

/-- Claim C2, as stated, is false on the route `server.js` mounts: when
the 30-second timeout rejection reaches the catch handler of
`tunnel-proxy.js`, the response status is 500 — not 504 — and the JSON
body has keys `message` and `error` but no `tunnel`. -/
theorem C2_counterexample :
    (proxyCatchResponse requestTimeoutMsg).1 = 500
    ∧ ¬ (proxyCatchResponse requestTimeoutMsg).1 = 504
    ∧ ((proxyCatchResponse requestTimeoutMsg).2.map Prod.fst).contains
        "tunnel" = false := by
  exact ⟨by decide, by decide, by decide⟩

/-- Claim C2 (amended): the mounted proxy route translates every
forwarding failure — the 30-second timeout included — to status 500 with
body `{message, error}`; only the enhanced proxy variant distinguishes
504 from 502, and it does so by whether the error message contains the
substring `timeout` (true of both 30-second timeout messages), with a
body carrying `message`, `error`, and `tunnel` fields. -/
theorem C2_failure_translation :
    (∀ m, (proxyCatchResponse m).1 = 500
      ∧ (proxyCatchResponse m).2.map Prod.fst = ["message", "error"])
    ∧ (∀ m sub reg, hasSub m "timeout" = true →
        (forwardErrorResponse m sub reg).1 = 504)
    ∧ (∀ m sub reg, hasSub m "timeout" = false →
        (forwardErrorResponse m sub reg).1 = 502)
    ∧ (∀ sub reg, (forwardErrorResponse gatewayTimeoutMsg sub reg).1 = 504)
    ∧ (∀ sub reg, (forwardErrorResponse requestTimeoutMsg sub reg).1 = 504)
    ∧ (∀ m sub reg, (forwardErrorResponse m sub reg).2.map Prod.fst
        = ["message", "error", "tunnel", "debug"]) := by
  refine ⟨fun m => ⟨rfl, rfl⟩, ?_, ?_, ?_, ?_, fun m sub reg => rfl⟩
  · intro m sub reg h
    simp [forwardErrorResponse, h]
  · intro m sub reg h
    simp [forwardErrorResponse, h]
  · intro sub reg
    have h : hasSub gatewayTimeoutMsg "timeout" = true := by decide
    simp [forwardErrorResponse, h]
  · intro sub reg
    have h : hasSub requestTimeoutMsg "timeout" = true := by decide
    simp [forwardErrorResponse, h]

/-- The enhanced handler classifies a message without `timeout` as 502,
checked concretely. -/
theorem C2_failure_translation_witness :
    (forwardErrorResponse "Client disconnected" "myapp" "id").1 = 502 :=
  C2_failure_translation.2.2.1 "Client disconnected" "myapp" "id" (by decide)

/-! ## Claim C5 -/

/-- Claim C5, as stated, is false in both directions: the mounted proxy
puts the incoming headers into the `request` frame unmodified, so the
frame delivered to the client still carries `x-tunnel-subdomain`,
`x-tunnel-region` and `keep-alive`; and on the response path a mixed-case
`Keep-Alive` header survives both the websocket handler's cleanup (which
deletes only the all-lowercase and all-uppercase spellings) and the
mounted proxy's filter (which skips only content-length, connection and
transfer-encoding), so it is written back to the edge. -/
theorem C5_counterexample :
    (proxyResolve
        ⟨"POST", "/", [("x-tunnel-subdomain", "myapp"),
          ("x-tunnel-region", "id"), ("keep-alive", "timeout=5")], none⟩
        [⟨7, "tok", "myapp", "id", true, "active", none⟩]
        ["myapp.id"] "r9").1
      = ProxyOutcome.forwarded
          ⟨"r9", "POST", "/", [("x-tunnel-subdomain", "myapp"),
            ("x-tunnel-region", "id"), ("keep-alive", "timeout=5")], none⟩
    ∧ proxyWriteHeaders (wsCleanHeaders [("Keep-Alive", "timeout=5")])
        = [("Keep-Alive", "timeout=5")] := by
  exact ⟨by decide, by decide⟩

/-- Claim C5 (amended): each hop sanitizes with its own list, not one
shared list applied in both directions.  The gateway forwards request
headers into the frame unmodified; `client/index.js` strips, by
lowercased name, host, connection, upgrade, x-forwarded-for, x-real-ip,
x-tunnel-subdomain, x-tunnel-region, x-forwarded-host and
x-forwarded-proto (the enhanced client also content-length and
transfer-encoding) before dialing the local endpoint; on the response
path the websocket handler deletes the eight headers content-length,
transfer-encoding, connection, upgrade, keep-alive, host, x-powered-by
and server in their exact lowercase and UPPERCASE spellings only, and the
mounted proxy then drops, by lowercased name, content-length, connection
and transfer-encoding together with empty-valued entries (the enhanced
proxy variant drops its eight-entry list likewise). -/
theorem C5_header_hygiene :
    (∀ req db keys rid f, (proxyResolve req db keys rid).1
        = ProxyOutcome.forwarded f → f.headers = req.headers)
    ∧ (∀ hs k v, (k, v) ∈ sanitizeHeadersIndexJs hs
        ↔ ((k, v) ∈ hs ∧ lowerStr k ∉ clientSkipIndexJs))
    ∧ (∀ hs k v, (k, v) ∈ sanitizeHeadersPart004 hs
        ↔ ((k, v) ∈ hs ∧ lowerStr k ∉ clientSkipPart004))
    ∧ (∀ hs k v, (k, v) ∈ wsCleanHeaders hs
        ↔ ((k, v) ∈ hs ∧ k ∉ problematicHeaders
            ∧ k ∉ problematicHeaders.map upperStr))
    ∧ (∀ hs k v, (k, v) ∈ proxyWriteHeaders hs
        ↔ ((k, v) ∈ hs ∧ lowerStr k ∉ skipHeadersProxy ∧ v ≠ ""))
    ∧ (∀ hs k v, (k, v) ∈ enhancedWriteHeaders hs
        ↔ ((k, v) ∈ hs ∧ lowerStr k ∉ skipHeadersEnhanced ∧ v ≠ "")) := by
  refine ⟨?_, ?_, ?_, ?_, ?_, ?_⟩
  · intro req db keys rid f h
    cases hs : headerVal req "x-tunnel-subdomain" with
    | none => simp [proxyResolve, hs] at h
    | some sub =>
      cases hr : headerVal req "x-tunnel-region" with
      | none => simp [proxyResolve, hs, hr] at h
      | some reg =>
        cases hfind : findActiveTunnelRow db sub reg with
        | none => simp [proxyResolve, hs, hr, hfind] at h
        | some t =>
          by_cases hcc : t.clientConnected = false
          · simp [proxyResolve, hs, hr, hfind, hcc] at h
          · by_cases hk : keys.contains (sub ++ "." ++ reg) = true
            · simp only [proxyResolve, hs, hr, hfind, if_neg hcc,
                if_pos hk, ProxyOutcome.forwarded.injEq] at h
              rw [← h]
            · replace hk : sub ++ "." ++ reg ∉ keys := by simpa using hk
              simp [proxyResolve, hs, hr, hfind, hcc, hk] at h
  · intro hs k v
    simp [sanitizeHeadersIndexJs, List.mem_filter]
  · intro hs k v
    simp [sanitizeHeadersPart004, List.mem_filter]
  · intro hs k v
    simp [wsCleanHeaders, List.mem_filter, not_or]
  · intro hs k v
    simp [proxyWriteHeaders, List.mem_filter, bne]
  · intro hs k v
    simp [enhancedWriteHeaders, List.mem_filter, bne]

/-- The `X-Custom` header passes the index.js sanitizer while `Host` is
dropped, checked via the characterization. -/
theorem C5_header_hygiene_witness :
    ("X-Custom", "1") ∈ sanitizeHeadersIndexJs [("Host", "a"), ("X-Custom", "1")] :=
  (C5_header_hygiene.2.1 [("Host", "a"), ("X-Custom", "1")] "X-Custom" "1").mpr
    ⟨by decide, by decide⟩

/-! ## Claim C6 -/

theorem findAvailablePortAux_some {used : List (String × Nat)}
    {loc : String} :
    ∀ {ds : List Nat} {p : Nat}, findAvailablePortAux used loc ds = some p →
      isPortFree used loc p = true ∧ 10000 ≤ p ∧ p ≤ 59999 := by
  intro ds
  induction ds with
  | nil => intro p h; simp [findAvailablePortAux] at h
  | cons r rest ih =>
    intro p h
    simp only [findAvailablePortAux] at h
    by_cases hf : isPortFree used loc (generateRandomPort r) = true
    · rw [if_pos hf] at h
      obtain rfl : generateRandomPort r = p := by simpa using h
      refine ⟨hf, ?_, ?_⟩ <;> (unfold generateRandomPort; omega)
    · rw [if_neg hf] at h
      exact ih h

theorem findAvailablePortAux_none {used : List (String × Nat)}
    {loc : String} :
    ∀ {ds : List Nat},
      (∀ r ∈ ds, isPortFree used loc (generateRandomPort r) = false) →
      findAvailablePortAux used loc ds = none := by
  intro ds
  induction ds with
  | nil => intro _; rfl
  | cons r rest ih =>
    intro h
    simp only [findAvailablePortAux]
    rw [if_neg (by simp [h r (by simp)])]
    exact ih (fun x hx => h x (by simp [hx]))

/-- Claim C6, as stated, is false for the first `tunnels.js` POST variant:
with every port of the region occupied on all six draws, the handler does
not fail with `ExhaustedPortSpace` — it keeps the last drawn port 10005,
which still conflicts, and proceeds to insert it. -/
theorem C6_counterexample :
    variantAAssign [("id", 10000), ("id", 10001), ("id", 10002),
        ("id", 10003), ("id", 10004), ("id", 10005)] "id" 0 [1, 2, 3, 4, 5]
      = 10005
    ∧ isPortFree [("id", 10000), ("id", 10001), ("id", 10002),
        ("id", 10003), ("id", 10004), ("id", 10005)] "id" 10005 = false := by
  exact ⟨by decide, by decide⟩

/-- Claim C6 (amended): random draws land in the closed interval
[10000, 59999] (60000 is never drawn).  The `findAvailablePort` variant
probes at most 20 draws, returns only a port that is free in the region
and in range, and fails — inserting nothing — when every probed draw
conflicts; a user-supplied port receives exactly the `(region, port)`
uniqueness check (409 on conflict, accepted otherwise).  The first POST
variant retries only 5 extra times and, on exhaustion, proceeds with the
last conflicting draw (see the counterexample); when its first draw is
free it is used directly; and it performs no uniqueness check at all for
a user-supplied port — the port is kept even when it already conflicts
in the region. -/
theorem C6_port_allocation :
    (∀ r, 10000 ≤ generateRandomPort r ∧ generateRandomPort r ≤ 59999)
    ∧ (∀ used loc draws p, findAvailablePort used loc draws = some p →
        isPortFree used loc p = true ∧ 10000 ≤ p ∧ p ≤ 59999)
    ∧ (∀ used loc draws,
        (∀ r ∈ draws, isPortFree used loc (generateRandomPort r) = false) →
        findAvailablePort used loc draws = none)
    ∧ (∀ used loc draws, findAvailablePort used loc draws
        = findAvailablePortAux used loc (draws.take 20))
    ∧ (∀ used loc p draws, isPortFree used loc p = false →
        variantBAssign used loc "tcp" (some p) draws
          = PortAssignResult.conflict409 p)
    ∧ (∀ used loc p draws, isPortFree used loc p = true →
        variantBAssign used loc "tcp" (some p) draws
          = PortAssignResult.ok p)
    ∧ (∀ used loc d0 retries,
        isPortFree used loc (generateRandomPort d0) = true →
        variantAAssign used loc d0 retries = generateRandomPort d0)
    ∧ (∀ used loc prot st p d0 retries, isPortFree used loc p = false →
        variantAPortAssign used loc prot st (some p) d0 retries = some p)
    ∧ (∀ used loc st d0 retries,
        variantAPortAssign used loc "tcp" st none d0 retries
          = some (variantAAssign used loc d0 retries)) := by
  refine ⟨?_, ?_, ?_, fun used loc draws => rfl, ?_, ?_, ?_, ?_, ?_⟩
  · intro r
    unfold generateRandomPort
    omega
  · intro used loc draws p h
    exact findAvailablePortAux_some h
  · intro used loc draws h
    exact findAvailablePortAux_none
      (fun r hr => h r (List.take_subset 20 draws hr))
  · intro used loc p draws h
    simp [variantBAssign, h]
  · intro used loc p draws h
    simp [variantBAssign, h]
  · intro used loc d0 retries h
    simp [variantAAssign, h]
  · intro used loc prot st p d0 retries h
    rfl
  · intro used loc st d0 retries
    simp [variantAPortAssign]

/-- `findAvailablePort` skips the occupied 10000 and returns the free
10003, which the theorem certifies as free and in range. -/
theorem C6_port_allocation_witness :
    isPortFree [("id", 10000)] "id" 10003 = true :=
  (C6_port_allocation.2.1 [("id", 10000)] "id" [0, 3] 10003 (by decide)).1

/-! ## Claim C8 -/

theorem b64Val_char : ∀ n < 64, b64Val (b64Char n) = some n := by decide

theorem b64Char_ne_pad : ∀ n < 64, (b64Char n == '=') = false := by decide

theorem base64_roundtrip : ∀ (b : List Nat), (∀ x ∈ b, x < 256) →
    base64Decode (base64Encode b) = some b
  | [], _ => rfl
  | [a], h => by
    have ha : a < 256 := h a (by simp)
    have h1 := b64Val_char (a / 4) (by omega)
    have h2 := b64Val_char (a % 4 * 16) (by omega)
    simp [base64Encode, base64Decode, h1, h2]
    omega
  | [a, b], h => by
    have ha : a < 256 := h a (by simp)
    have hb : b < 256 := h b (by simp)
    have h1 := b64Val_char (a / 4) (by omega)
    have h2 := b64Val_char (a % 4 * 16 + b / 16) (by omega)
    have h3 := b64Val_char (b % 16 * 4) (by omega)
    have hy := b64Char_ne_pad (b % 16 * 4) (by omega)
    simp [base64Encode, base64Decode, h1, h2, h3, hy]
    omega
  | a :: b :: d :: rest, h => by
    have ha : a < 256 := h a (by simp)
    have hb : b < 256 := h b (by simp)
    have hd : d < 256 := h d (by simp)
    have ih := base64_roundtrip rest (fun x hx => h x (by simp [hx]))
    have h1 := b64Val_char (a / 4) (by omega)
    have h2 := b64Val_char (a % 4 * 16 + b / 16) (by omega)
    have h3 := b64Val_char (b % 16 * 4 + d / 64) (by omega)
    have h4 := b64Val_char (d % 64) (by omega)
    have hy := b64Char_ne_pad (b % 16 * 4 + d / 64) (by omega)
    have hz := b64Char_ne_pad (d % 64) (by omega)
    simp [base64Encode, base64Decode, h1, h2, h3, h4, hy, hz, ih]
    omega

theorem utf8EncodeChar_ne_nil (c : Nat) : utf8EncodeChar c ≠ [] := by
  unfold utf8EncodeChar
  split_ifs <;> simp

theorem utf8Encode_cons (c : Nat) (cs : List Nat) :
    utf8Encode (c :: cs) = utf8EncodeChar c ++ utf8Encode cs := by
  simp [utf8Encode]

theorem utf8Encode_length_ge (cs : List Nat) :
    cs.length ≤ (utf8Encode cs).length := by
  induction cs with
  | nil => simp [utf8Encode]
  | cons c cs ih =>
    have h1 : 0 < (utf8EncodeChar c).length :=
      List.length_pos.mpr (utf8EncodeChar_ne_nil c)
    rw [utf8Encode_cons, List.length_append, List.length_cons]
    omega

theorem utf8DecodeOne_encodeChar (c : Nat) (h : validScalar c = true)
    (t : List Nat) : utf8DecodeOne (utf8EncodeChar c ++ t) = some (c, t) := by
  have hv : c < 0xD800 ∨ (0xE000 ≤ c ∧ c < 0x110000) := by
    simpa [validScalar, Bool.or_eq_true, Bool.and_eq_true,
      decide_eq_true_eq] using h
  by_cases h1 : c < 0x80
  · have e1 : utf8EncodeChar c = [c] := by
      unfold utf8EncodeChar
      rw [if_pos h1]
    rw [e1]
    simp [utf8DecodeOne, h1]
  · by_cases h2 : c < 0x800
    · have e1 : utf8EncodeChar c = [0xC0 + c / 64, 0x80 + c % 64] := by
        unfold utf8EncodeChar
        rw [if_neg h1, if_pos h2]
      rw [e1]
      have c1 : ¬ (0xC0 + c / 64 < 0x80) := by omega
      have c2 : ¬ (0xC0 + c / 64 < 0xC2) := by omega
      have c3 : 0xC0 + c / 64 < 0xE0 := by omega
      have c4 : isCont (0x80 + c % 64) = true := by
        simp only [isCont, Bool.and_eq_true, decide_eq_true_eq]
        omega
      simp only [List.cons_append, List.nil_append, utf8DecodeOne,
        if_neg c1, if_neg c2, if_pos c3, c4, if_true]
      simp only [Option.some.injEq, Prod.mk.injEq]
      refine ⟨by omega, ?_⟩
      try rfl
      try trivial
    · by_cases h3 : c < 0x10000
      · have e1 : utf8EncodeChar c
            = [0xE0 + c / 4096, 0x80 + c / 64 % 64, 0x80 + c % 64] := by
          unfold utf8EncodeChar
          rw [if_neg h1, if_neg h2, if_pos h3]
        rw [e1]
        have c1 : ¬ (0xE0 + c / 4096 < 0x80) := by omega
        have c2 : ¬ (0xE0 + c / 4096 < 0xC2) := by omega
        have c3 : ¬ (0xE0 + c / 4096 < 0xE0) := by omega
        have c4 : 0xE0 + c / 4096 < 0xF0 := by omega
        have c5 : isCont (0x80 + c / 64 % 64) = true := by
          simp only [isCont, Bool.and_eq_true, decide_eq_true_eq]
          omega
        have c6 : isCont (0x80 + c % 64) = true := by
          simp only [isCont, Bool.and_eq_true, decide_eq_true_eq]
          omega
        have hval : (0xE0 + c / 4096 - 0xE0) * 4096
            + (0x80 + c / 64 % 64 - 0x80) * 64 + (0x80 + c % 64 - 0x80)
            = c := by omega
        have hcond : (decide (c < 0x800)
            || (decide (0xD800 ≤ c) && decide (c < 0xE000))) = false := by
          rcases hv with hv | hv
          · simp only [Bool.or_eq_false_iff, Bool.and_eq_false_iff,
              decide_eq_false_iff_not]
            omega
          · simp only [Bool.or_eq_false_iff, Bool.and_eq_false_iff,
              decide_eq_false_iff_not]
            omega
        simp only [List.cons_append, List.nil_append, utf8DecodeOne,
          if_neg c1, if_neg c2, if_neg c3, if_pos c4, c5, c6,
          Bool.and_self, if_true, hval, hcond, Bool.false_eq_true,
          if_false]
      · have h4 : c < 0x110000 := by
          rcases hv with hv | hv
          · omega
          · exact hv.2
        have e1 : utf8EncodeChar c
            = [0xF0 + c / 262144, 0x80 + c / 4096 % 64, 0x80 + c / 64 % 64,
               0x80 + c % 64] := by
          unfold utf8EncodeChar
          rw [if_neg h1, if_neg h2, if_neg h3]
        rw [e1]
        have c1 : ¬ (0xF0 + c / 262144 < 0x80) := by omega
        have c2 : ¬ (0xF0 + c / 262144 < 0xC2) := by omega
        have c3 : ¬ (0xF0 + c / 262144 < 0xE0) := by omega
        have c4 : ¬ (0xF0 + c / 262144 < 0xF0) := by omega
        have c5 : 0xF0 + c / 262144 < 0xF5 := by omega
        have c6 : isCont (0x80 + c / 4096 % 64) = true := by
          simp only [isCont, Bool.and_eq_true, decide_eq_true_eq]
          omega
        have c7 : isCont (0x80 + c / 64 % 64) = true := by
          simp only [isCont, Bool.and_eq_true, decide_eq_true_eq]
          omega
        have c8 : isCont (0x80 + c % 64) = true := by
          simp only [isCont, Bool.and_eq_true, decide_eq_true_eq]
          omega
        have hval : (0xF0 + c / 262144 - 0xF0) * 262144
            + (0x80 + c / 4096 % 64 - 0x80) * 4096
            + (0x80 + c / 64 % 64 - 0x80) * 64 + (0x80 + c % 64 - 0x80)
            = c := by omega
        have hcond : (decide (c < 0x10000) || decide (0x110000 ≤ c))
            = false := by
          simp only [Bool.or_eq_false_iff, decide_eq_false_iff_not]
          omega
        simp only [List.cons_append, List.nil_append, utf8DecodeOne,
          if_neg c1, if_neg c2, if_neg c3, if_neg c4, if_pos c5, c6, c7, c8,
          Bool.and_self, if_true, hval, hcond, Bool.false_eq_true, if_false]

theorem utf8DecodeAux_encode : ∀ (cs : List Nat) (fuel : Nat),
    (∀ c ∈ cs, validScalar c = true) → cs.length ≤ fuel →
    utf8DecodeAux fuel (utf8Encode cs) = some cs
  | [], fuel, _, _ => by
    cases fuel <;> rfl
  | c :: cs, fuel, h, hf => by
    cases fuel with
    | zero => simp at hf
    | succ f =>
      have hone := utf8DecodeOne_encodeChar c (h c (by simp)) (utf8Encode cs)
      have ih := utf8DecodeAux_encode cs f (fun x hx => h x (by simp [hx]))
        (by simpa using hf)
      rw [utf8Encode_cons]
      cases hE : utf8EncodeChar c with
      | nil => exact absurd hE (utf8EncodeChar_ne_nil c)
      | cons a l =>
        rw [hE] at hone
        rw [List.cons_append] at hone
        simp only [List.cons_append, utf8DecodeAux, List.append_eq, hone, ih]
        rfl

theorem utf8_roundtrip (cs : List Nat)
    (h : ∀ c ∈ cs, validScalar c = true) :
    utf8Decode (utf8Encode cs) = some cs :=
  utf8DecodeAux_encode cs (utf8Encode cs).length h (utf8Encode_length_ge cs)

/-- `hasSub` is monotone under taking sub-patterns. -/
theorem hasSub_mono (s p q : String) (hqp : q.data <:+: p.data)
    (hp : hasSub s p = true) : hasSub s q = true := by
  simp only [hasSub, decide_eq_true_eq] at hp ⊢
  exact hqp.trans hp

/-- Claim C8, as stated, is false: the claim's pattern
`image|video|audio|octet-stream|pdf` classifies `text/pdf` as binary, but
both client implementations require the full `application/pdf` substring
(and `client/index.js` has no pdf alternative at all), so both send
`text/pdf` bodies as utf8 text. -/
theorem C8_counterexample :
    isBinarySpecClaim "text/pdf" = true
    ∧ isBinaryPart004 "text/pdf" = false
    ∧ isBinaryIndexJs "text/pdf" = false := by
  exact ⟨by decide, by decide, by decide⟩

/-- Claim C8 (amended): the enhanced client classifies a body as binary
exactly when its content-type matches
`image|video|audio|application\/octet-stream|application\/pdf` (the
simple client omits the pdf alternative, so its binary set is contained
in the enhanced one); every content-type either classifier marks binary
also matches the spec's looser pattern; and the encoding round-trips are
identities — base64-encode then decode is the identity on byte bodies,
and utf8-encode then decode is the identity on text bodies (sequences of
Unicode scalar values). -/
theorem C8_body_roundtrip :
    (∀ ct, isBinaryIndexJs ct = true → isBinaryPart004 ct = true)
    ∧ (∀ ct, isBinaryPart004 ct = true → isBinarySpecClaim ct = true)
    ∧ (∀ b, (∀ x ∈ b, x < 256) → base64Decode (base64Encode b) = some b)
    ∧ (∀ cs, (∀ c ∈ cs, validScalar c = true) →
        utf8Decode (utf8Encode cs) = some cs) := by
  refine ⟨?_, ?_, base64_roundtrip, utf8_roundtrip⟩
  · intro ct h
    simp only [isBinaryIndexJs, Bool.or_eq_true] at h
    simp only [isBinaryPart004, Bool.or_eq_true]
    tauto
  · intro ct h
    simp only [isBinaryPart004, Bool.or_eq_true] at h
    simp only [isBinarySpecClaim, Bool.or_eq_true]
    rcases h with (((h | h) | h) | h) | h
    · tauto
    · tauto
    · tauto
    · exact Or.inl (Or.inr (hasSub_mono ct "application/octet-stream"
        "octet-stream" (by decide) h))
    · exact Or.inr (hasSub_mono ct "application/pdf" "pdf"
        (by decide) h)

/-- The byte body `[0, 255, 10]` survives the base64 round trip. -/
theorem C8_body_roundtrip_witness :
    base64Decode (base64Encode [0, 255, 10]) = some [0, 255, 10] :=
  C8_body_roundtrip.2.2.1 [0, 255, 10] (by decide)

end Tunlify
